import Mathlib

/-!
Shallow embedding of the extraction-and-reconciliation engine of
`src/app.py` (the Genthrust alarm bot).

Modelling conventions:
* Python strings are Lean `String`s; all inputs are assumed ASCII, so
  `String.toUpper`, `Char.isDigit`, `Char.isWhitespace` coincide with the
  Python operations on the data that actually flows through the program.
* `text.splitlines()` is modelled by `String.splitOn "\n"`; the only
  difference (a trailing empty line) is skipped by the scanner's blank-line
  check in both models.
* The regular-expression searches of `extract_data_from_text` are simulated
  character by character.  Every character class appearing next to a greedy
  quantifier in those patterns is disjoint from the class that follows it,
  so maximal-munch simulation is exact (no backtracking is ever needed
  inside one alternative); ordered alternation is simulated by trying the
  alternatives in source order.
* A pandas cell is abstracted by its two observable uses in the source:
  `str(cell)` (field `asStr`) and `int(cell)` (field `asInt`, `none` when
  `int` raises).
* Python `set` iteration order is unspecified; the per-line candidate set
  `line_parts` is modelled as an insertion-ordered deduplicated list.
  No claim below depends on the order of elements within one line.
-/

/-- One extracted requisition item: `{'part': ..., 'req_qty': ...}`. -/
structure ReqItem where
  part : String
  req_qty : Int
deriving Repr, DecidableEq

/-! ### String primitives

The Lean core versions of `trim`, `toUpper`, `splitOn`, `startsWith` are
implemented with byte-position loops that the kernel cannot evaluate, so
the Python string primitives are modelled directly on the character
list underlying a `String`. -/

/-- `str.upper()` (ASCII). -/
def strUpper (s : String) : String := String.mk (s.data.map Char.toUpper)

/-- `str.lower()` (ASCII). -/
def strLower (s : String) : String := String.mk (s.data.map Char.toLower)

/-- `str.strip()` with no argument: drop whitespace from both ends. -/
def trimChars (cs : List Char) : List Char :=
  ((cs.dropWhile Char.isWhitespace).reverse.dropWhile Char.isWhitespace).reverse

/-- `str.strip()` on a `String`. -/
def strTrim (s : String) : String := String.mk (trimChars s.data)

/-- `str(c).upper().strip()`, the column-name normalization of
`find_column_by_name`. -/
def normCol (c : String) : String := strTrim (strUpper c)

/-- `a.startswith(b)`. -/
def strStartsWith (s pre : String) : Bool := pre.data.isPrefixOf s.data

/-- `a.endswith(b)`. -/
def strEndsWith (s suf : String) : Bool := suf.data.isSuffixOf s.data

/-- Split at every newline character, keeping empty segments, modelling
`text.splitlines()` (whose only divergence, the treatment of a trailing
newline, is erased by the scanner's blank-line skip). -/
def splitLinesAux : List Char → List Char → List String
  | [], acc => [String.mk acc.reverse]
  | c :: cs, acc =>
    if c = '\n' then String.mk acc.reverse :: splitLinesAux cs []
    else splitLinesAux cs (c :: acc)

def splitLines (s : String) : List String := splitLinesAux s.data []

/-- `str.split()` with no argument: maximal runs of non-whitespace,
no empty tokens. -/
def wordsByWsAux : List Char → List Char → List (List Char)
  | [], acc => if acc.isEmpty then [] else [acc.reverse]
  | c :: cs, acc =>
    if c.isWhitespace then
      if acc.isEmpty then wordsByWsAux cs [] else acc.reverse :: wordsByWsAux cs []
    else wordsByWsAux cs (c :: acc)

def wordsByWs (cs : List Char) : List (List Char) := wordsByWsAux cs []

/-! ### Character-level helpers for the regex simulations -/

/-- Digits-to-number, `int()` on a nonempty string of decimal digits. -/
def digitsToNat (cs : List Char) : Nat :=
  cs.foldl (fun n c => 10 * n + (c.toNat - 48)) 0

/-- Literal-prefix matcher: `some rest` when `lab` is a prefix of `s`. -/
def stripPref : List Char → List Char → Option (List Char)
  | [], s => some s
  | _ :: _, [] => none
  | a :: lab, b :: s => if a = b then stripPref lab s else none

/-- The class `[:\s]` used by the quantity/part label separators. -/
def isSepChar (c : Char) : Bool := c = ':' || c.isWhitespace

/-- The capture class `[A-Z0-9\-\.]` of the explicit part regex (the
scanner runs it on the uppercased line, so the lowercase range that
`re.IGNORECASE` would add is vacuous). -/
def isPartClassChar (c : Char) : Bool :=
  ('A' ≤ c && c ≤ 'Z') || ('0' ≤ c && c ≤ '9') || c = '-' || c = '.'

/-! ### qty_regex : `(?:QTY|QUANTITY|COUNT)[:\s]+(\d+)|(\d+)\s*(?:EA|EACH|PC|PCS)` -/

/-- First alternative of `qty_regex` anchored at the head of `s`
(`QTY|QUANTITY|COUNT` then `[:\s]+` then `(\d+)`); the three labels are
mutually exclusive as prefixes, so ordered alternation needs no
backtracking. -/
def qtyAlt1 (s : List Char) : Option Nat :=
  [['Q','T','Y'], ['Q','U','A','N','T','I','T','Y'], ['C','O','U','N','T']].findSome?
    fun lab =>
      match stripPref lab s with
      | none => none
      | some r1 =>
        let sep := r1.takeWhile isSepChar
        if sep.isEmpty then none
        else
          let digs := (r1.dropWhile isSepChar).takeWhile Char.isDigit
          if digs.isEmpty then none else some (digitsToNat digs)

/-- Second alternative of `qty_regex` anchored at the head of `s`
(`(\d+)\s*(?:EA|EACH|PC|PCS)`). -/
def qtyAlt2 (s : List Char) : Option Nat :=
  let digs := s.takeWhile Char.isDigit
  if digs.isEmpty then none
  else
    let rest := (s.dropWhile Char.isDigit).dropWhile Char.isWhitespace
    if [['E','A'], ['E','A','C','H'], ['P','C'], ['P','C','S']].any
        (fun lab => (stripPref lab rest).isSome)
    then some (digitsToNat digs) else none

/-- `qty_regex.search`: leftmost position wins, alternative 1 before
alternative 2 at each position; returns the captured quantity
(`group(1) or group(2)`, always a digit string, so `int` never fails). -/
def qtySearch : List Char → Option Nat
  | [] => none
  | s@(_ :: t) =>
    match qtyAlt1 s with
    | some q => some q
    | none =>
      match qtyAlt2 s with
      | some q => some q
      | none => qtySearch t

/-! ### explicit_part_regex :
`(?:P/N|PN|PART|PART NO|PART NUMBER|ALT|ALTERNATE)[:\s]+([A-Z0-9\-\.]+)` -/

/-- The ordered label alternatives of the explicit part pattern. -/
def explicitLabels : List (List Char) :=
  [ ['P','/','N'], ['P','N'], ['P','A','R','T'],
    ['P','A','R','T',' ','N','O'], ['P','A','R','T',' ','N','U','M','B','E','R'],
    ['A','L','T'], ['A','L','T','E','R','N','A','T','E'] ]

/-- Try the explicit part pattern anchored at the head of `s`: labels in
source order, each followed by `[:\s]+` and the capture `([A-Z0-9\-\.]+)`;
a label whose continuation fails backtracks to the next label, exactly as
the Python engine does.  Returns the capture and the suffix after the
match. -/
def tryExplicitAt (s : List Char) : Option (List Char × List Char) :=
  explicitLabels.findSome? fun lab =>
    match stripPref lab s with
    | none => none
    | some r1 =>
      let sep := r1.takeWhile isSepChar
      if sep.isEmpty then none
      else
        let r2 := r1.dropWhile isSepChar
        let cap := r2.takeWhile isPartClassChar
        if cap.isEmpty then none
        else some (cap, r2.dropWhile isPartClassChar)

/-- `explicit_part_regex.findall`: scan left to right, emit each
non-overlapping match's capture, resume after the match.  Fuelled by the
string length, which bounds the number of scanning steps (every match
consumes at least one character). -/
def explicitFindallAux : Nat → List Char → List (List Char)
  | 0, _ => []
  | _ + 1, [] => []
  | n + 1, s@(_ :: t) =>
    match tryExplicitAt s with
    | some (cap, rest) => cap :: explicitFindallAux n rest
    | none => explicitFindallAux n t

def explicitFindall (s : List Char) : List (List Char) :=
  explicitFindallAux s.length s

/-! ### Token shape filters of the implicit scan -/

/-- `^\d{3}-\d{3}-\d{4}$` (phone shape). -/
def isPhoneShape (s : List Char) : Bool :=
  match s with
  | [a, b, c, h1, d, e, f, h2, g, h, i, j] =>
    [a,b,c,d,e,f,g,h,i,j].all Char.isDigit && h1 = '-' && h2 = '-'
  | _ => false

/-- Date shape: 1-2 digits, a slash or hyphen, 1-2 digits, a slash or
hyphen, 2-4 digits, anchored at both ends; the digit runs and the
separators are disjoint classes, so the bounded greedy groups reduce to
run-length checks. -/
def isDateShape (s : List Char) : Bool :=
  let r1 := s.takeWhile Char.isDigit
  let s1 := s.dropWhile Char.isDigit
  match s1 with
  | c1 :: s2 =>
    (c1 = '/' || c1 = '-') &&
    (let r2 := s2.takeWhile Char.isDigit
     let s3 := s2.dropWhile Char.isDigit
     match s3 with
     | c2 :: s4 =>
       (c2 = '/' || c2 = '-') &&
       (let r3 := s4.takeWhile Char.isDigit
        s4.dropWhile Char.isDigit = [] &&
        (1 ≤ r1.length && r1.length ≤ 2) &&
        (1 ≤ r2.length && r2.length ≤ 2) &&
        (2 ≤ r3.length && r3.length ≤ 4))
     | [] => false)
  | [] => false

/-- `^N\d` (aircraft tail-number shape; unanchored at the end). -/
def isTailShape (s : List Char) : Bool :=
  match s with
  | 'N' :: d :: _ => d.isDigit
  | _ => false

/-- `^\d+(ST|ND|RD|TH)$` (ordinal shape). -/
def isOrdinalShape (s : List Char) : Bool :=
  let digs := s.takeWhile Char.isDigit
  let rest := s.dropWhile Char.isDigit
  !digs.isEmpty &&
    (rest = ['S','T'] || rest = ['N','D'] || rest = ['R','D'] || rest = ['T','H'])

/-- The static ignore-token set of `extract_data_from_text`. -/
def ignoreTokens : List String :=
  [ "QTY", "REQ", "UM", "EA", "EACH", "DESC", "DESCRIPTION", "REV", "DATE",
    "SIGNED", "DELIVERED", "BY", "AND", "OR", "TO", "FROM", "SUBJECT", "SENT",
    "CC", "HI", "HELLO", "REGARDS", "THANKS", "BOLT", "SCREW", "WASHER", "NUT",
    "PIN", "RIVET", "COLLAR", "BUSHING", "SEAL", "SUPPORT", "BEARING", "CLAMP",
    "SN", "S/N", "SERIAL", "AWB", "OUTBOUND", "SHIPPING", "COMPANY", "ACCOUNT",
    "USED", "NOTES", "TRACKING", "PHONE", "FAX", "NEEDED", "ASSEMBLY", "ASSY" ]

/-- Python `str.strip(chars)`: drop characters of the set from both ends. -/
def stripCharSet (bad : List Char) (s : List Char) : List Char :=
  ((s.dropWhile (bad.contains ·)).reverse.dropWhile (bad.contains ·)).reverse

/-- The strip set `'.,:;()[]"'` of the implicit token scan. -/
def tokenStripSet : List Char := ['.', ',', ':', ';', '(', ')', '[', ']', '"']

/-- The strip set `'.,:; '` applied to explicit captures. -/
def explicitStripSet : List Char := ['.', ',', ':', ';', ' ']

/-- Keep `t` as an implicit part candidate? (`t` is the uppercased,
punctuation-stripped token; all five rejection tests of the source in
order, then the ignore set). -/
def implicitTokenOk (t : List Char) : Bool :=
  decide (3 ≤ t.length) &&
  t.any Char.isDigit &&
  !isPhoneShape t &&
  !isDateShape t &&
  !isTailShape t &&
  !isOrdinalShape t &&
  !ignoreTokens.contains (String.mk t)

/-- The surviving implicit tokens of one (already uppercased) line:
whitespace-split tokens, stripped of surrounding punctuation, filtered. -/
def implicitParts (ul : String) : List String :=
  (wordsByWs ul.data).filterMap fun tok =>
    let t := stripCharSet tokenStripSet tok
    if implicitTokenOk t then some (String.mk t) else none

/-- The cleaned explicit captures of one (already uppercased) line, kept
when longer than 2 characters. -/
def explicitParts (ul : String) : List String :=
  (explicitFindall ul.data).filterMap fun cap =>
    let p := stripCharSet explicitStripSet cap
    if 2 < p.length then some (String.mk p) else none

/-- Insertion-ordered deduplicating union, modelling the Python `set`
`line_parts` (explicit captures added first, then implicit tokens). -/
def dedupAppend (acc : List String) : List String → List String
  | [] => acc
  | p :: ps => if acc.contains p then dedupAppend acc ps else dedupAppend (acc ++ [p]) ps

/-- All part candidates contributed by one (already uppercased) line. -/
def lineParts (ul : String) : List String :=
  dedupAppend (dedupAppend [] (explicitParts ul)) (implicitParts ul)

/-! ### The line-oriented scanner `extract_data_from_text` -/

/-- The structural header/footer labels skipped by the scanner. -/
def headerPrefixes : List String :=
  ["AIRCRAFT:", "REASON:", "SUBJECT:", "FROM:", "TO:", "SENT:", "ADDRESS:", "SHIP TO:"]

/-- One iteration of the scanner's line loop over the state
`(results, current_block_parts)`. -/
def scanStep (st : List ReqItem × List String) (line : String) :
    List ReqItem × List String :=
  let (results, pending) := st
  let cl := strTrim line
  if cl = "" then (results, pending)
  else
    let ul := strUpper cl
    if headerPrefixes.any (fun h => strStartsWith ul h) then (results, pending)
    else
      match qtySearch ul.data with
      | some q => (results ++ pending.map (fun p => ⟨p, (q : Int)⟩), [])
      | none => (results, pending ++ lineParts ul)

/-- `extract_data_from_text`: fold the line loop, then flush the still
pending parts with quantity 1. -/
def extract_data_from_text (text : String) : List ReqItem :=
  let st := (splitLines text).foldl scanStep ([], [])
  st.1 ++ st.2.map (fun p => ⟨p, 1⟩)

/-! ### Tabular extraction (spreadsheet attachments and HTML tables) -/

/-- A pandas cell, abstracted by its two observable uses in the source:
`asStr` is `str(cell)`, `asInt` is `some n` when `int(cell) == n` and
`none` when `int(cell)` raises. -/
structure Cell where
  asStr : String
  asInt : Option Int
deriving Repr, DecidableEq

/-- A dataframe: named columns and rows aligned with them. -/
structure DataFrame where
  cols : List String
  rows : List (List Cell)
deriving Repr, DecidableEq

/-- `df.empty`: a pandas frame is empty when either axis has length 0. -/
def DataFrame.isEmptyDf (df : DataFrame) : Bool :=
  df.rows.isEmpty || df.cols.isEmpty

/-- `row[c]`: the cell of `row` under column name `c` of `df` (`str` of a
missing cell is pandas `nan`, which row extraction then skips; `int` of it
raises). -/
def cellAt (df : DataFrame) (row : List Cell) (c : String) : Cell :=
  match df.cols.indexOf? c with
  | some i => row.getD i ⟨"nan", none⟩
  | none => ⟨"nan", none⟩

/-- `find_column_by_name(df, keywords)`: build the dict
`{str(c).upper().strip(): c}` (a later duplicate key overwrites an earlier
one) and return the dict entry of the first keyword present in it. -/
def find_column_by_name (cols : List String) (keywords : List String) : Option String :=
  let entry := fun kw => (cols.filter (fun c => normCol c = kw)).getLast?
  keywords.findSome? entry

/-- The per-row quantity: `int(row[qty_col]) if qty_col else 1`, with the
surrounding `try`/`except` defaulting to 1. -/
def rowQty (df : DataFrame) (qty_col : Option String) (row : List Cell) : Int :=
  match qty_col with
  | none => 1
  | some c => (cellAt df row c).asInt.getD 1

/-- The shared row-extraction loop of both tabular strategies: normalize
the part cell, skip empty and `nan` parts, attach the row quantity. -/
def extractRows (df : DataFrame) (part_col : String) (qty_col : Option String) :
    List ReqItem :=
  df.rows.filterMap fun row =>
    let p := strUpper (strTrim (cellAt df row part_col).asStr)
    if p ≠ "" && p ≠ "NAN" then some ⟨p, rowQty df qty_col row⟩ else none

/-- Part-column candidates of the attachment strategy. -/
def attachPartKeywords : List String := ["P/N", "PN", "PART", "PART NUMBER", "ITEM"]

/-- Quantity-column candidates of the attachment strategy. -/
def attachQtyKeywords : List String := ["QTY", "QUANTITY", "REQ", "QTY REQ"]

/-- Part-column candidates of the HTML-table strategy. -/
def htmlPartKeywords : List String := ["P/N", "PN", "PART", "PART NUMBER"]

/-- Quantity-column candidates of the HTML-table strategy. -/
def htmlQtyKeywords : List String := ["QTY", "QUANTITY"]

/-! ### The strategy selector `extract_data_from_email` -/

/-- A message attachment: its name and the outcome of
`pd.read_excel` on the saved copy (`none` when parsing raises, which the
per-attachment `try` catches). -/
structure Attachment where
  name : String
  parsed : Option DataFrame
deriving Repr, DecidableEq

/-- The input bundle handed to `extract_data_from_email`.  `htmlTables` is
the outcome of `pd.read_html(body)` (`none` when it raises), `bodyText`
the plain text `BeautifulSoup(body).get_text(separator="\n")` (the
`except` branch substitutes `""`); both are kept abstract as fields since
HTML parsing itself is outside the embedding. -/
structure Message where
  subject : String
  body : String
  attachments : List Attachment
  htmlTables : Option (List DataFrame)
  bodyText : String
deriving Repr, DecidableEq

/-- Recognized spreadsheet attachment names:
`name.lower().endswith(('.xlsx', '.xls'))`. -/
def isSpreadsheetName (name : String) : Bool :=
  strEndsWith (strLower name) ".xlsx" || strEndsWith (strLower name) ".xls"

/-- Process one attachment inside the strategy-1 loop.  Returns the
strategy outcome (`some` = items returned and loop exited) together with
the temp-file paths left behind in `TEMP_DIR` by this attachment: the
saved copy is removed by `os.remove` only on the success path, so a parse
error or an unresolved part column leaves the copy behind. -/
def processAttachment (a : Attachment) :
    Option (List ReqItem × String) × List String :=
  if isSpreadsheetName a.name then
    match a.parsed with
    | none => (none, [a.name])
    | some df =>
      match find_column_by_name df.cols attachPartKeywords with
      | some pc =>
        let qc := find_column_by_name df.cols attachQtyKeywords
        (some (extractRows df pc qc, "Excel (" ++ a.name ++ ")"), [])
      | none => (none, [a.name])
  else (none, [])

/-- Strategy 1: iterate the attachments, returning the first success and
accumulating the leftover temp files of the attachments tried. -/
def attachmentStrategy : List Attachment → Option (List ReqItem × String) × List String
  | [] => (none, [])
  | a :: rest =>
    match processAttachment a with
    | (some r, left) => (some r, left)
    | (none, left) =>
      let (res, left2) := attachmentStrategy rest
      (res, left ++ left2)

/-- Process one HTML table: resolve columns directly, otherwise retry with
the first row promoted to header (`df.columns = df.iloc[0]; df = df[1:]`);
`none` when no part-number column resolves either way. -/
def processTable (df : DataFrame) : Option (List ReqItem) :=
  let pc := find_column_by_name df.cols htmlPartKeywords
  let qc := find_column_by_name df.cols htmlQtyKeywords
  match pc with
  | some c => some (extractRows df c qc)
  | none =>
    if df.isEmptyDf then none
    else
      let promoted : DataFrame :=
        ⟨(df.rows.headD []).map (·.asStr), df.rows.tail⟩
      match find_column_by_name promoted.cols htmlPartKeywords with
      | some c =>
        some (extractRows promoted c (find_column_by_name promoted.cols htmlQtyKeywords))
      | none => none

/-- Strategy 2: the first table with a resolvable part-number column wins;
an empty body skips the strategy (`if message.body:`), and a raising
`pd.read_html` is caught by the surrounding `try` (`htmlTables = none`). -/
def htmlStrategy (m : Message) : Option (List ReqItem × String) :=
  if m.body = "" then none
  else
    match m.htmlTables with
    | none => none
    | some dfs => (dfs.findSome? processTable).map (fun items => (items, "HTML Table"))

/-- Strategy 3, the always-available fallback: text-scan
`f"{message.subject}\n{body_text}"`. -/
def textStrategy (m : Message) : List ReqItem × String :=
  (extract_data_from_text (m.subject ++ "\n" ++ m.bodyText), "Text Scanner")

/-- `extract_data_from_email(message)`: attachment strategy, then HTML
tables, then the text scanner; the first satisfied strategy's output is
returned unmerged. -/
def extract_data_from_email (m : Message) : List ReqItem × String :=
  match (attachmentStrategy m.attachments).1 with
  | some r => r
  | none =>
    match htmlStrategy m with
    | some r => r
    | none => textStrategy m

/-! ### The reconciliation matcher of `process_emails` -/

/-- One row of the loaded inventory snapshot.  `quantity` is `some n` when
`int(row['quantity']) == n` and `none` when that call raises (unparsable
cell or missing column); `condition` is `none` when
`row.get('condition', 'N/A')` falls back or the value is `NaN`. -/
structure InvRecord where
  part_number : String
  quantity : Option Int
  condition : Option String
deriving Repr, DecidableEq

/-- One classified result row of the report. -/
structure RecResult where
  part : String
  status : String
  condition : String
  req_qty : Int
  stock_qty : Int
  remaining : Int
deriving Repr, DecidableEq

/-- The lookup of the per-item loop: the first record equal to the part,
else the first record whose part number starts with it (annotating the
displayed part), else nothing.  `df[df['part_number'] == part]` filters in
load order and `match.iloc[0]` takes the first remaining row, which is
exactly `List.find?`. -/
def findMatch (inv : List InvRecord) (part : String) : Option (String × InvRecord) :=
  match inv.find? (fun r => r.part_number = part) with
  | some r => some (part, r)
  | none =>
    match inv.find? (fun r => strStartsWith r.part_number part) with
    | some r => some (part ++ " (Matched: " ++ r.part_number ++ ")", r)
    | none => none

/-- The status classification applied to a matched record. -/
def classify (disp : String) (req : Int) (r : InvRecord) : RecResult :=
  let stock := r.quantity.getD 0
  let cond := r.condition.getD "N/A"
  if stock = 0 then ⟨disp, "OUT OF STOCK", cond, req, stock, 0⟩
  else if req ≤ stock then ⟨disp, "IN STOCK", cond, req, stock, stock - req⟩
  else ⟨disp, "LOW STOCK (Have " ++ toString stock ++ ")", cond, req, stock, 0⟩

/-- The per-item body of the reconciliation loop in `process_emails`. -/
def reconcileItem (inv : List InvRecord) (it : ReqItem) : RecResult :=
  match findMatch inv it.part with
  | some (disp, r) => classify disp it.req_qty r
  | none => ⟨it.part, "MISSING (Unknown Part)", "N/A", it.req_qty, 0, 0⟩

/-- The whole reconciliation pass over the extracted items. -/
def reconcile (inv : List InvRecord) (items : List ReqItem) : List RecResult :=
  items.map (reconcileItem inv)

/-- The quantity value the scanner assigns to a line, `none` when the line
is blank, a skipped header, or matches no quantity pattern. -/
def qtyLineValue (line : String) : Option Nat :=
  let cl := strTrim line
  if cl = "" then none
  else if headerPrefixes.any (fun h => strStartsWith (strUpper cl) h) then none
  else qtySearch (strUpper cl).data

/-- The part candidates a line contributes to `current_block_parts`
(empty for blank, header and quantity lines). -/
def partsOfLine (line : String) : List String :=
  let cl := strTrim line
  if cl = "" then []
  else
    let ul := strUpper cl
    if headerPrefixes.any (fun h => strStartsWith ul h) then []
    else
      match qtySearch ul.data with
      | some _ => []
      | none => lineParts ul

/-! ## Theorems -/

/-- The scanner step in terms of the line classification: a quantity line
flushes the pending block with its quantity, every other line only
appends its part candidates. -/
theorem scanStep_eq (st : List ReqItem × List String) (line : String) :
    scanStep st line =
      match qtyLineValue line with
      | some q => (st.1 ++ st.2.map (fun p => ⟨p, (q : Int)⟩), [])
      | none => (st.1, st.2 ++ partsOfLine line) := by
  obtain ⟨res, pend⟩ := st
  simp only [scanStep, qtyLineValue, partsOfLine]
  split
  · simp
  · split
    · simp
    · cases hq : qtySearch (strUpper (strTrim line)).data <;> simp [hq]

/-- C1: for every requisition item reconciled against the snapshot, a
matched record with parsed stock `s` yields OUT OF STOCK with remaining 0
when `s = 0`, IN STOCK with remaining `s - requested` when
`requested ≤ s`, and LOW STOCK carrying the on-hand count with remaining 0
when `0 < s < requested`; an item with no exact or prefix match yields
MISSING with condition N/A, stock 0 and remaining 0. -/
theorem c1_status_boundaries (inv : List InvRecord) (it : ReqItem)
    (hreq : 1 ≤ it.req_qty) :
    (∀ disp r s, findMatch inv it.part = some (disp, r) → r.quantity = some s →
      ((s = 0 → (reconcileItem inv it).status = "OUT OF STOCK" ∧
                (reconcileItem inv it).remaining = 0) ∧
       (it.req_qty ≤ s → (reconcileItem inv it).status = "IN STOCK" ∧
                (reconcileItem inv it).remaining = s - it.req_qty) ∧
       (0 < s → s < it.req_qty →
                (reconcileItem inv it).status = "LOW STOCK (Have " ++ toString s ++ ")" ∧
                (reconcileItem inv it).remaining = 0))) ∧
    (findMatch inv it.part = none →
      reconcileItem inv it =
        ⟨it.part, "MISSING (Unknown Part)", "N/A", it.req_qty, 0, 0⟩) := by
  constructor
  · intro disp r s hm hq
    simp only [reconcileItem, hm, classify, hq, Option.getD_some]
    refine ⟨fun h0 => ?_, fun hin => ?_, fun hpos hlt => ?_⟩
    · simp [h0]
    · have hne : s ≠ 0 := by omega
      simp [hne, hin]
    · have hne : s ≠ 0 := by omega
      have hnin : ¬ it.req_qty ≤ s := by omega
      simp [hne, hnin]
  · intro hm
    simp [reconcileItem, hm]

/-- Witness for C1 at concrete inputs: each of the four boundary cases
evaluated on an explicit snapshot. -/
theorem c1_status_boundaries_witness :
    ((reconcileItem [⟨"A1", some 0, none⟩] ⟨"A1", 2⟩).status = "OUT OF STOCK" ∧
     (reconcileItem [⟨"A1", some 0, none⟩] ⟨"A1", 2⟩).remaining = 0) ∧
    ((reconcileItem [⟨"B2", some 5, none⟩] ⟨"B2", 3⟩).status = "IN STOCK" ∧
     (reconcileItem [⟨"B2", some 5, none⟩] ⟨"B2", 3⟩).remaining = 5 - 3) ∧
    ((reconcileItem [⟨"C3", some 4, none⟩] ⟨"C3", 10⟩).status = "LOW STOCK (Have " ++ toString (4:Int) ++ ")" ∧
     (reconcileItem [⟨"C3", some 4, none⟩] ⟨"C3", 10⟩).remaining = 0) ∧
    reconcileItem [] ⟨"D4", 2⟩ = ⟨"D4", "MISSING (Unknown Part)", "N/A", 2, 0, 0⟩ := by
  refine ⟨?_, ?_, ?_, ?_⟩
  · exact ((c1_status_boundaries [⟨"A1", some 0, none⟩] ⟨"A1", 2⟩ (by decide)).1
      "A1" ⟨"A1", some 0, none⟩ 0 rfl rfl).1 rfl
  · exact ((c1_status_boundaries [⟨"B2", some 5, none⟩] ⟨"B2", 3⟩ (by decide)).1
      "B2" ⟨"B2", some 5, none⟩ 5 rfl rfl).2.1 (by decide)
  · exact ((c1_status_boundaries [⟨"C3", some 4, none⟩] ⟨"C3", 10⟩ (by decide)).1
      "C3" ⟨"C3", some 4, none⟩ 4 rfl rfl).2.2 (by decide) (by decide)
  · exact (c1_status_boundaries [] ⟨"D4", 2⟩ (by decide)).2 rfl

/-- C3: when an item has no exact inventory match but some record's part
number starts with the item's part, the first such record (in load order,
which is what `List.find?` returns) supplies the stock data, and the
displayed part is annotated with the matched record's part number. -/
theorem c3_prefix_fallback (inv : List InvRecord) (it : ReqItem) (r : InvRecord)
    (hx : inv.find? (fun x => x.part_number = it.part) = none)
    (hp : inv.find? (fun x => strStartsWith x.part_number it.part) = some r) :
    (reconcileItem inv it).part = it.part ++ " (Matched: " ++ r.part_number ++ ")" ∧
    (reconcileItem inv it).stock_qty = r.quantity.getD 0 ∧
    (reconcileItem inv it).condition = r.condition.getD "N/A" := by
  simp only [reconcileItem, findMatch, hx, hp, classify]
  refine ⟨?_, ?_, ?_⟩
  all_goals
    split
    · rfl
    · split <;> rfl

/-- Witness for C3: the spec's own scenario, part `AB12` against a
snapshot holding only `AB12X9`. -/
theorem c3_prefix_fallback_witness :
    (reconcileItem [⟨"AB12X9", some 3, some "NEW"⟩] ⟨"AB12", 1⟩).part =
      "AB12" ++ " (Matched: " ++ "AB12X9" ++ ")" ∧
    (reconcileItem [⟨"AB12X9", some 3, some "NEW"⟩] ⟨"AB12", 1⟩).stock_qty =
      (some (3:Int)).getD 0 ∧
    (reconcileItem [⟨"AB12X9", some 3, some "NEW"⟩] ⟨"AB12", 1⟩).condition =
      (some "NEW").getD "N/A" :=
  c3_prefix_fallback [⟨"AB12X9", some 3, some "NEW"⟩] ⟨"AB12", 1⟩
    ⟨"AB12X9", some 3, some "NEW"⟩ (by decide) (by decide)

/-- C9: `remaining` is never negative, for any snapshot and any item; and
an insufficient positive stock is reported as LOW STOCK carrying the
on-hand count, with `remaining = 0` rather than a negative shortfall. -/
theorem c9_remaining_nonneg :
    (∀ (inv : List InvRecord) (it : ReqItem), 0 ≤ (reconcileItem inv it).remaining) ∧
    (∀ (inv : List InvRecord) (it : ReqItem) disp r s,
      findMatch inv it.part = some (disp, r) → r.quantity = some s →
      0 < s → s < it.req_qty →
      (reconcileItem inv it).status = "LOW STOCK (Have " ++ toString s ++ ")" ∧
      (reconcileItem inv it).remaining = 0) := by
  constructor
  · intro inv it
    unfold reconcileItem
    split
    · simp only [classify]
      split
      · simp
      · split
        · next hle => simp only [RecResult.mk.injEq]; omega
        · simp
    · simp
  · intro inv it disp r s hm hq hpos hlt
    simp only [reconcileItem, hm, classify, hq, Option.getD_some]
    have hne : s ≠ 0 := by omega
    have hnin : ¬ it.req_qty ≤ s := by omega
    simp [hne, hnin]

/-- Witness for C9: the LOW STOCK conjunct at a concrete shortfall. -/
theorem c9_remaining_nonneg_witness :
    0 ≤ (reconcileItem [⟨"XY-200", some 4, none⟩] ⟨"XY-200", 10⟩).remaining ∧
    (reconcileItem [⟨"XY-200", some 4, none⟩] ⟨"XY-200", 10⟩).status =
      "LOW STOCK (Have " ++ toString (4:Int) ++ ")" ∧
    (reconcileItem [⟨"XY-200", some 4, none⟩] ⟨"XY-200", 10⟩).remaining = 0 :=
  ⟨c9_remaining_nonneg.1 [⟨"XY-200", some 4, none⟩] ⟨"XY-200", 10⟩,
   c9_remaining_nonneg.2 [⟨"XY-200", some 4, none⟩] ⟨"XY-200", 10⟩
     "XY-200" ⟨"XY-200", some 4, none⟩ 4 rfl rfl (by decide) (by decide)⟩

/-- C10: a matched record whose quantity cell cannot be parsed as an
integer is treated as stock 0 and classified OUT OF STOCK with remaining
0, never MISSING and never an error, while the condition is still copied
from the matched record (N/A when unset). -/
theorem c10_unparsable_stock (inv : List InvRecord) (it : ReqItem)
    (disp : String) (r : InvRecord)
    (hm : findMatch inv it.part = some (disp, r)) (hq : r.quantity = none) :
    (reconcileItem inv it).status = "OUT OF STOCK" ∧
    (reconcileItem inv it).stock_qty = 0 ∧
    (reconcileItem inv it).remaining = 0 ∧
    (reconcileItem inv it).condition = r.condition.getD "N/A" ∧
    (reconcileItem inv it).status ≠ "MISSING (Unknown Part)" := by
  simp only [reconcileItem, hm, classify, hq, Option.getD_none]
  simp

/-- Witness for C10: a record whose quantity cell fails `int()`. -/
theorem c10_unparsable_stock_witness :
    (reconcileItem [⟨"AB", none, some "NE"⟩] ⟨"AB", 2⟩).status = "OUT OF STOCK" ∧
    (reconcileItem [⟨"AB", none, some "NE"⟩] ⟨"AB", 2⟩).stock_qty = 0 ∧
    (reconcileItem [⟨"AB", none, some "NE"⟩] ⟨"AB", 2⟩).remaining = 0 ∧
    (reconcileItem [⟨"AB", none, some "NE"⟩] ⟨"AB", 2⟩).condition =
      (some "NE").getD "N/A" ∧
    (reconcileItem [⟨"AB", none, some "NE"⟩] ⟨"AB", 2⟩).status ≠ "MISSING (Unknown Part)" :=
  c10_unparsable_stock [⟨"AB", none, some "NE"⟩] ⟨"AB", 2⟩
    "AB" ⟨"AB", none, some "NE"⟩ rfl rfl

/-- C7: a quantity line with value `q` emits one item with quantity `q`
per currently pending part and clears the block without scanning the line
for parts; any other line leaves the emitted results untouched and only
extends the pending block, also across a whole run of such lines; and the
parts still pending at end of input are flushed with quantity 1. -/
theorem c7_quantity_fanout :
    (∀ (st : List ReqItem × List String) (line : String) (q : Nat),
       qtyLineValue line = some q →
       scanStep st line = (st.1 ++ st.2.map (fun p => ⟨p, (q : Int)⟩), [])) ∧
    (∀ (st : List ReqItem × List String) (line : String),
       qtyLineValue line = none →
       scanStep st line = (st.1, st.2 ++ partsOfLine line)) ∧
    (∀ (st : List ReqItem × List String) (lines : List String),
       (∀ l ∈ lines, qtyLineValue l = none) →
       ∃ extra, lines.foldl scanStep st = (st.1, st.2 ++ extra)) ∧
    (∀ text : String,
       extract_data_from_text text =
         ((splitLines text).foldl scanStep ([], [])).1 ++
         ((splitLines text).foldl scanStep ([], [])).2.map (fun p => ⟨p, 1⟩)) := by
  refine ⟨fun st line q h => ?_, fun st line h => ?_, fun st lines h => ?_, fun text => rfl⟩
  · rw [scanStep_eq, h]
  · rw [scanStep_eq, h]
  · induction lines generalizing st with
    | nil => exact ⟨[], by simp⟩
    | cons l ls ih =>
      have hl : qtyLineValue l = none := h l (by simp)
      obtain ⟨extra, hextra⟩ := ih (scanStep st l) (fun x hx => h x (by simp [hx]))
      refine ⟨partsOfLine l ++ extra, ?_⟩
      rw [List.foldl_cons, hextra, scanStep_eq, hl]
      simp

/-- Witness for C7: pending parts A1B and C2D both receive quantity 5
from the following quantity line, and the block is cleared. -/
theorem c7_quantity_fanout_witness :
    scanStep ([], ["A1B", "C2D"]) "Qty: 5" =
      ([⟨"A1B", (5 : Int)⟩, ⟨"C2D", (5 : Int)⟩], []) := by
  have h := c7_quantity_fanout.1 ([], ["A1B", "C2D"]) "Qty: 5" 5 (by decide)
  simpa using h

/-- C2 as stated is false: the quantity line `QTY: 0` parses successfully,
so the scanner emits a requisition item with requested_quantity 0. -/
theorem c2_counterexample :
    extract_data_from_text "AB-123\nQTY: 0" = [⟨"AB-123", 0⟩] ∧
    ¬ 1 ≤ (⟨"AB-123", 0⟩ : ReqItem).req_qty := by decide

/-- C2 amended: a malformed, missing, or unparsable quantity defaults to
1, and the text scanner only emits non-negative quantities; but a
successfully parsed explicit quantity is emitted as-is, so 0 (or, from a
table cell, a negative integer) is possible. -/
theorem c2_quantity_default :
    (∀ (text : String) (it : ReqItem), it ∈ extract_data_from_text text → 0 ≤ it.req_qty) ∧
    (∀ (df : DataFrame) (row : List Cell) (c : String),
       (cellAt df row c).asInt = none → rowQty df (some c) row = 1) ∧
    (∀ (df : DataFrame) (row : List Cell), rowQty df none row = 1) := by
  refine ⟨?_, ?_, fun df row => rfl⟩
  · have key : ∀ (lines : List String) (st : List ReqItem × List String),
        (∀ it ∈ st.1, 0 ≤ it.req_qty) →
        ∀ it ∈ (lines.foldl scanStep st).1, 0 ≤ it.req_qty := by
      intro lines
      induction lines with
      | nil => intro st h; simpa using h
      | cons l ls ih =>
        intro st h
        rw [List.foldl_cons]
        apply ih
        rw [scanStep_eq]
        cases hq : qtyLineValue l
        · simpa using h
        · intro it hit
          simp only [List.mem_append] at hit
          rcases hit with h1 | h2
          · exact h it h1
          · rcases List.mem_map.1 h2 with ⟨p, _, rfl⟩
            simp
    intro text it hit
    unfold extract_data_from_text at hit
    simp only [List.mem_append] at hit
    rcases hit with h1 | h2
    · exact key (splitLines text) ([], []) (by simp) it h1
    · rcases List.mem_map.1 h2 with ⟨p, _, rfl⟩
      simp
  · intro df row c h
    simp [rowQty, h]

/-- Witness for C2 amended: a scanned part with default quantity 1 has a
non-negative quantity, and an unparsable table cell defaults to 1. -/
theorem c2_quantity_default_witness :
    0 ≤ (⟨"AB12X9", (1 : Int)⟩ : ReqItem).req_qty ∧
    rowQty ⟨["QTY"], []⟩ (some "QTY") [⟨"x", none⟩] = 1 :=
  ⟨c2_quantity_default.1 "about AB12X9" ⟨"AB12X9", 1⟩ (by decide),
   c2_quantity_default.2.1 ⟨["QTY"], []⟩ [⟨"x", none⟩] "QTY" (by decide)⟩

/-- C8 as stated is false: a tail-number-shaped token explicitly labeled
as a part, `P/N: N1234`, is captured by the explicit part pattern, which
bypasses the shape rejection, and `N1234` is emitted. -/
theorem c8_counterexample :
    extract_data_from_text "P/N: N1234" = [⟨"N1234", 1⟩] ∧
    isTailShape "N1234".data = true := by decide

/-- C8 amended: the implicit token scan never emits a token of phone,
date, tail-number, or ordinal shape; only the explicit labeled-part
pattern can emit such a token. -/
theorem c8_implicit_shape_rejection (ul : String) (t : String)
    (h : t ∈ implicitParts ul) :
    isPhoneShape t.data = false ∧ isDateShape t.data = false ∧
    isTailShape t.data = false ∧ isOrdinalShape t.data = false := by
  simp only [implicitParts, List.mem_filterMap] at h
  obtain ⟨tok, _, htok⟩ := h
  by_cases hok : implicitTokenOk (stripCharSet tokenStripSet tok) = true
  · rw [if_pos hok] at htok
    obtain rfl := Option.some.inj htok
    unfold implicitTokenOk at hok
    simp only [Bool.and_eq_true, Bool.not_eq_true'] at hok
    exact ⟨hok.1.1.1.1.2, hok.1.1.1.2, hok.1.1.2, hok.1.2⟩
  · rw [if_neg hok] at htok
    cases htok

/-- Witness for C8 amended: `AB-123` survives the implicit scan and
matches none of the four rejected shapes. -/
theorem c8_implicit_shape_rejection_witness :
    isPhoneShape "AB-123".data = false ∧ isDateShape "AB-123".data = false ∧
    isTailShape "AB-123".data = false ∧ isOrdinalShape "AB-123".data = false :=
  c8_implicit_shape_rejection "AB-123" "AB-123" (by decide)

/-- C4: extraction tries attachments, then HTML tables, then the text
scan; the first satisfied strategy's output is returned unchanged (never
merged with another strategy's), a caught parse error inside the
attachment strategy just advances to the next attachment, and the
text-scan fallback is a total function, so its result is always
defined. -/
theorem c4_strategy_priority (m : Message) :
    (∀ r, (attachmentStrategy m.attachments).1 = some r →
       extract_data_from_email m = r) ∧
    ((attachmentStrategy m.attachments).1 = none →
       ∀ r, htmlStrategy m = some r → extract_data_from_email m = r) ∧
    ((attachmentStrategy m.attachments).1 = none → htmlStrategy m = none →
       extract_data_from_email m =
         (extract_data_from_text (m.subject ++ "\n" ++ m.bodyText), "Text Scanner")) ∧
    (∀ (a : Attachment) (rest : List Attachment), a.parsed = none →
       (attachmentStrategy (a :: rest)).1 = (attachmentStrategy rest).1) ∧
    (m.htmlTables = none → htmlStrategy m = none) := by
  refine ⟨?_, ?_, ?_, ?_, ?_⟩
  · intro r h
    simp [extract_data_from_email, h]
  · intro h r hh
    simp [extract_data_from_email, h, hh]
  · intro h hh
    simp [extract_data_from_email, h, hh, textStrategy]
  · intro a rest hp
    rcases hrest : attachmentStrategy rest with ⟨res, l2⟩
    by_cases hs : isSpreadsheetName a.name = true <;>
      simp [attachmentStrategy, processAttachment, hp, hs, hrest]
  · intro h
    by_cases hb : m.body = "" <;> simp [htmlStrategy, h, hb]

/-- Witness for C4: a message whose first attachment parses with a
resolvable part column returns that attachment's rows with the Excel
method label. -/
theorem c4_strategy_priority_witness :
    extract_data_from_email
      ⟨"s", "", [⟨"req.xlsx", some ⟨["Part Number", "Qty"],
        [[⟨"ab-1", none⟩, ⟨"2", some 2⟩]]⟩⟩], none, ""⟩ =
      ([⟨"AB-1", 2⟩], "Excel (req.xlsx)") :=
  (c4_strategy_priority _).1 _ (by decide)

/-- C5 as stated is false: the temporary copy is not deleted when the
parsed spreadsheet has no resolvable part-number column, nor when parsing
raises; `os.remove` runs only on the success path. -/
theorem c5_counterexample :
    processAttachment ⟨"req.xlsx", some ⟨["FOO"], [[⟨"X1A", none⟩]]⟩⟩ =
      (none, ["req.xlsx"]) ∧
    processAttachment ⟨"bad.xls", none⟩ = (none, ["bad.xls"]) := by decide

/-- C5 amended: for a recognized spreadsheet attachment, the temporary
copy is deleted exactly when extraction succeeds (the sheet parses and a
part-number column resolves, so items are returned); on the failure exit
paths the copy is left behind. -/
theorem c5_cleanup_only_on_success (a : Attachment)
    (hs : isSpreadsheetName a.name = true) :
    (processAttachment a).2 = [] ↔ (processAttachment a).1.isSome := by
  simp only [processAttachment, hs, if_true]
  rcases hp : a.parsed with _ | df
  · simp
  · rcases hc : find_column_by_name df.cols attachPartKeywords with _ | pc <;> simp [hc]

/-- Witness for C5 amended: a successfully extracted attachment leaves no
temp file behind. -/
theorem c5_cleanup_only_on_success_witness :
    (processAttachment ⟨"req.xlsx", some ⟨["Part Number", "Qty"],
       [[⟨"ab-1", none⟩, ⟨"2", some 2⟩]]⟩⟩).2 = [] ↔
    (processAttachment ⟨"req.xlsx", some ⟨["Part Number", "Qty"],
       [[⟨"ab-1", none⟩, ⟨"2", some 2⟩]]⟩⟩).1.isSome :=
  c5_cleanup_only_on_success _ (by decide)

/-- Splitting lemma for ordered candidate search: a successful
`findSome?` pinpoints the first element the function accepts. -/
theorem findSome?_eq_some_split {α β : Type} (f : α → Option β) (l : List α) (b : β)
    (h : l.findSome? f = some b) :
    ∃ l1 a l2, l = l1 ++ a :: l2 ∧ f a = some b ∧ ∀ x ∈ l1, f x = none := by
  induction l with
  | nil => simp [List.findSome?_nil] at h
  | cons a as ih =>
    rw [List.findSome?_cons] at h
    cases hf : f a with
    | some v =>
      rw [hf] at h
      simp only [] at h
      exact ⟨[], a, as, rfl, by rw [hf, h], by simp⟩
    | none =>
      rw [hf] at h
      simp only [] at h
      obtain ⟨l1, x, l2, rfl, hx, hnone⟩ := ih h
      refine ⟨a :: l1, x, l2, rfl, hx, ?_⟩
      intro y hy
      rcases List.mem_cons.1 hy with rfl | hy2
      · exact hf
      · exact hnone y hy2

/-- C6 as stated is false for HTML tables: the HTML strategy's candidate
list omits ITEM (and REQ, QTY REQ), so a table whose part column is named
ITEM resolves under the attachment keyword list but is rejected by the
HTML-table extraction. -/
theorem c6_counterexample :
    find_column_by_name ["ITEM", "QTY"] htmlPartKeywords = none ∧
    find_column_by_name ["ITEM", "QTY"] attachPartKeywords = some "ITEM" ∧
    processTable ⟨["ITEM", "QTY"], [[⟨"AB-1", none⟩, ⟨"2", some 2⟩]]⟩ = none := by
  decide

/-- C6 amended: columns are resolved by case-insensitive trimmed matching
against ordered candidate lists, the first candidate in list order with a
matching column winning, and a table with no resolvable part column is
rejected (`none`); but the two strategies use different lists — the
attachment strategy has part candidates P/N, PN, PART, PART NUMBER, ITEM
and quantity candidates QTY, QUANTITY, REQ, QTY REQ, while the HTML
strategy has only P/N, PN, PART, PART NUMBER and QTY, QUANTITY. -/
theorem c6_column_resolution :
    (∀ (cols kws : List String) (c : String),
       find_column_by_name cols kws = some c →
       ∃ l1 kw l2, kws = l1 ++ kw :: l2 ∧ c ∈ cols ∧ normCol c = kw ∧
         ∀ kw2 ∈ l1, ∀ col ∈ cols, normCol col ≠ kw2) ∧
    (∀ (cols kws : List String),
       find_column_by_name cols kws = none → ∀ c ∈ cols, normCol c ∉ kws) ∧
    (attachPartKeywords = ["P/N", "PN", "PART", "PART NUMBER", "ITEM"] ∧
     attachQtyKeywords = ["QTY", "QUANTITY", "REQ", "QTY REQ"] ∧
     htmlPartKeywords = ["P/N", "PN", "PART", "PART NUMBER"] ∧
     htmlQtyKeywords = ["QTY", "QUANTITY"]) := by
  refine ⟨?_, ?_, rfl, rfl, rfl, rfl⟩
  · intro cols kws c h
    obtain ⟨l1, kw, l2, rfl, hkw, hnone⟩ :=
      findSome?_eq_some_split _ kws c h
    refine ⟨l1, kw, l2, rfl, ?_, ?_, ?_⟩
    · have hmem : c ∈ cols.filter (fun x => normCol x = kw) := by
        rw [List.getLast?_eq_some_iff] at hkw
        obtain ⟨ys, hys⟩ := hkw
        rw [hys]; simp
      exact (List.mem_filter.1 hmem).1
    · have hmem : c ∈ cols.filter (fun x => normCol x = kw) := by
        rw [List.getLast?_eq_some_iff] at hkw
        obtain ⟨ys, hys⟩ := hkw
        rw [hys]; simp
      simpa using (List.mem_filter.1 hmem).2
    · intro kw2 h2 col hcol
      have := hnone kw2 h2
      rw [List.getLast?_eq_none_iff] at this
      intro heq
      have : col ∈ cols.filter (fun x => normCol x = kw2) :=
        List.mem_filter.2 ⟨hcol, by simpa using heq⟩
      simp_all
  · intro cols kws h c hc
    rw [show find_column_by_name cols kws =
          kws.findSome? (fun kw => (cols.filter (fun x => normCol x = kw)).getLast?)
        from rfl, List.findSome?_eq_none_iff] at h
    intro hmem
    have hlast := h (normCol c) hmem
    rw [List.getLast?_eq_none_iff] at hlast
    have hcf : c ∈ cols.filter (fun x => normCol x = normCol c) :=
      List.mem_filter.2 ⟨hc, by simp⟩
    rw [hlast] at hcf
    simp at hcf

/-- Witness for C6 amended: `Part Number` resolves under the HTML part
list via the candidate `PART NUMBER`, no earlier candidate matching. -/
theorem c6_column_resolution_witness :
    ∃ l1 kw l2, htmlPartKeywords = l1 ++ kw :: l2 ∧
      "Part Number" ∈ ["Desc", "Part Number"] ∧ normCol "Part Number" = kw ∧
      ∀ kw2 ∈ l1, ∀ col ∈ ["Desc", "Part Number"], normCol col ≠ kw2 :=
  c6_column_resolution.1 ["Desc", "Part Number"] htmlPartKeywords "Part Number" (by decide)
